import Mathlib

/-!
Verification development for the WorkitEnd freelance-marketplace server.

The definitions below are a shallow embedding of the server code:
the in-memory storage backend (class MemStorage in server/storage.ts),
the Express route handlers registered in server/routes.ts, and the
auth middleware (isAdmin, isAuthenticated).  JavaScript id values
(numbers, NaN, strings) are embedded as the inductive type Value;
JS Maps keyed by numbers are embedded as integer-keyed association
lists; Date.now-style timestamps are passed explicitly; bcrypt.hash
and bcrypt.compare are abstract function parameters.
-/

/-- A JavaScript value appearing in an id position: a (finite) number,
NaN, or a string.  Ids in this code base are small integers or
ObjectId-style strings, so finite numbers are embedded as integers. -/
inductive Value where
  | num (n : Int)
  | nan
  | str (s : String)
deriving DecidableEq, Repr

/-- JavaScript strict equality on id values.  NaN === NaN is false,
and a number never equals a string. -/
def seq : Value → Value → Bool
  | .num a, .num b => a == b
  | .str a, .str b => a == b
  | _, _ => false

/-- JavaScript String(v) on an id value. -/
def jsString : Value → String
  | .num n => toString n
  | .nan => "NaN"
  | .str s => s

/-- The whitespace characters skipped by JavaScript parseInt. -/
def jsWhitespace (c : Char) : Bool :=
  c == ' ' || c == '\t' || c == '\n' || c == '\r' || c == '\x0b' || c == '\x0c'

/-- JS String.prototype.startsWith, at the character level. -/
def jsStartsWith (s p : String) : Bool :=
  p.data.isPrefixOf s.data

/-- JS String.prototype.toLowerCase (ASCII case folding suffices for the
usernames this code handles). -/
def jsToLower (s : String) : String :=
  ⟨s.data.map Char.toLower⟩

/-- JS String.prototype.trim: strip whitespace from both ends. -/
def jsTrim (s : String) : String :=
  ⟨((s.data.dropWhile jsWhitespace).reverse.dropWhile jsWhitespace).reverse⟩

/-- Value of the leading decimal-digit run of a character list;
none when the list does not start with a digit (parseInt returns NaN). -/
def digitsValue (cs : List Char) : Option Nat :=
  let ds := cs.takeWhile Char.isDigit
  if ds.isEmpty then none
  else some (ds.foldl (fun a c => a * 10 + (c.toNat - 48)) 0)

/-- JavaScript parseInt(s) with radix 10: skip leading whitespace, an
optional sign, then the longest leading run of decimal digits; the
result is NaN (embedded as none) when no digit follows. -/
def parseIntJS (s : String) : Option Int :=
  match s.data.dropWhile jsWhitespace with
  | [] => none
  | c :: rest =>
    if c == '-' then (digitsValue rest).map (fun n => -(n : Int))
    else if c == '+' then (digitsValue rest).map (fun n => (n : Int))
    else (digitsValue (c :: rest)).map (fun n => (n : Int))

/-- JS Map.get on the integer-keyed maps used by MemStorage. -/
def mget {α : Type} (m : List (Int × α)) (k : Int) : Option α :=
  (m.find? (fun p => p.1 == k)).map (fun p => p.2)

/-- JS Map.set: overwrite in place when the key exists, append otherwise. -/
def mset {α : Type} (m : List (Int × α)) (k : Int) (v : α) : List (Int × α) :=
  if (m.find? (fun p => p.1 == k)).isSome then
    m.map (fun p => if p.1 == k then (k, v) else p)
  else m ++ [(k, v)]

/-- JS Map.delete of a key (argument order suited to List.foldl). -/
def mdel {α : Type} (m : List (Int × α)) (k : Int) : List (Int × α) :=
  m.filter (fun p => p.1 != k)

/-- JS Array.from(map.values()). -/
def mvalues {α : Type} (m : List (Int × α)) : List α :=
  m.map (fun p => p.2)

/-- The repeated id-normalization ternary of MemStorage: a number is used
as is (NaN included), a string accepted by parseInt becomes that number,
any other value is kept unchanged. -/
def normalizeId : Value → Value
  | .num n => .num n
  | .nan => .nan
  | .str s =>
    match parseIntJS s with
    | some n => .num n
    | none => .str s

/-- The numericId computed by updateUser, deleteUser, updateUserStatus and
updateApplicationStatus: a number (NaN included) is used directly, a
parseInt-able string becomes a number, anything else leaves the id
undefined (none). -/
def resolveNumericId : Value → Option Value
  | .num n => some (.num n)
  | .nan => some .nan
  | .str s => (parseIntJS s).map (fun n => Value.num n)

/-- Same resolution, keeping only ids that denote an actual integer key
(NaN resolves to a number that matches no stored key). -/
def resolveIntId : Value → Option Int
  | .num n => some n
  | .nan => none
  | .str s => parseIntJS s

/-- JS pattern (x || null) for an optional string: null and the empty
string are falsy, so both collapse to null. -/
def jsOrNull : Option String → Option String
  | some s => if s == "" then none else some s
  | none => none

/-- JS pattern (x || d) for an optional string with a default. -/
def jsOrDefault (x : Option String) (d : String) : String :=
  match x with
  | some s => if s == "" then d else s
  | none => d

/-- A user record as stored by MemStorage (shared/schema User). -/
structure User where
  id : Int
  username : String
  email : String
  password : String
  fullName : String
  role : String
  status : String
  blockedReason : Option String
  bio : Option String
  profilePicture : Option String
  createdAt : Nat
deriving DecidableEq, Repr

/-- A service record.  The userId keeps the JS value passed to
createService after its string-to-number normalization. -/
structure Service where
  id : Int
  userId : Value
  title : String
  price : Int
  category : String
  status : String
  image : Option String
  createdAt : Nat
deriving DecidableEq, Repr

/-- A job record. -/
structure Job where
  id : Int
  userId : Value
  title : String
  budget : Int
  category : String
  status : String
  image : Option String
  location : Option String
  createdAt : Nat
deriving DecidableEq, Repr

/-- An application record linking a user to a job. -/
structure Application where
  id : Int
  userId : Value
  jobId : Value
  coverLetter : String
  status : String
  resumeFile : Option String
  createdAt : Nat
deriving DecidableEq, Repr

/-- An order record linking a buyer and a seller to a service. -/
structure Order where
  id : Int
  buyerId : Value
  sellerId : Value
  serviceId : Value
  totalPrice : Int
  status : String
  createdAt : Nat
deriving DecidableEq, Repr

/-- A review record linking a user to a service. -/
structure Review where
  id : Int
  userId : Value
  serviceId : Value
  rating : Int
  comment : Option String
  createdAt : Nat
deriving DecidableEq, Repr

/-- The state of the MemStorage class: six integer-keyed maps and the
six auto-increment counters. -/
structure MemStorage where
  users : List (Int × User)
  services : List (Int × Service)
  jobs : List (Int × Job)
  applications : List (Int × Application)
  orders : List (Int × Order)
  reviews : List (Int × Review)
  currentUserId : Int
  currentServiceId : Int
  currentJobId : Int
  currentApplicationId : Int
  currentOrderId : Int
  currentReviewId : Int
deriving DecidableEq, Repr

/-- MemStorage.getUser: a number id is looked up directly (a NaN id hits
no stored key, since keys come from the integer counter), a string id
accepted by parseInt is looked up under that number, and any other
string (ObjectId-style ids included) yields undefined. -/
def MemStorage.getUser (st : MemStorage) (id : Value) : Option User :=
  match id with
  | .num n => mget st.users n
  | .nan => none
  | .str s =>
    match parseIntJS s with
    | some n => mget st.users n
    | none => none

/-- MemStorage.getUserByUsername: first stored user with that exact
username. -/
def MemStorage.getUserByUsername (st : MemStorage) (username : String) : Option User :=
  (mvalues st.users).find? (fun u => u.username == username)

/-- MemStorage.getUserByEmail. -/
def MemStorage.getUserByEmail (st : MemStorage) (email : String) : Option User :=
  (mvalues st.users).find? (fun u => u.email == email)

/-- MemStorage.getService, with the same id handling as getUser. -/
def MemStorage.getService (st : MemStorage) (id : Value) : Option Service :=
  match id with
  | .num n => mget st.services n
  | .nan => none
  | .str s =>
    match parseIntJS s with
    | some n => mget st.services n
    | none => none

/-- MemStorage.getJob, with the same id handling as getUser. -/
def MemStorage.getJob (st : MemStorage) (id : Value) : Option Job :=
  match id with
  | .num n => mget st.jobs n
  | .nan => none
  | .str s =>
    match parseIntJS s with
    | some n => mget st.jobs n
    | none => none

/-- MemStorage.getApplication, with the same id handling as getUser. -/
def MemStorage.getApplication (st : MemStorage) (id : Value) : Option Application :=
  match id with
  | .num n => mget st.applications n
  | .nan => none
  | .str s =>
    match parseIntJS s with
    | some n => mget st.applications n
    | none => none

/-- The argument record of MemStorage.createUser (shared/schema
InsertUser after insertUserSchema.parse). -/
structure InsertUser where
  username : String
  email : String
  password : String
  confirmPassword : String
  fullName : String
  role : Option String
  bio : Option String
  profilePicture : Option String
deriving DecidableEq, Repr

/-- MemStorage.createUser: take the next counter id, default the role to
freelancer, force status to active and blockedReason to null, and store
the record under the new id.  Returns the created user and the new
store state; the timestamp of new Date() is the explicit argument. -/
def MemStorage.createUser (st : MemStorage) (insertUser : InsertUser) (now : Nat) :
    User × MemStorage :=
  let id := st.currentUserId
  let user : User := {
    id := id
    username := insertUser.username
    email := insertUser.email
    password := insertUser.password
    fullName := insertUser.fullName
    createdAt := now
    role := jsOrDefault insertUser.role ("freelancer")
    status := "active"
    blockedReason := none
    bio := jsOrNull insertUser.bio
    profilePicture := jsOrNull insertUser.profilePicture }
  (user, { st with users := mset st.users id user, currentUserId := id + 1 })

/-- The status argument type of MemStorage.updateUserStatus. -/
inductive UStatus where
  | active
  | blocked
deriving DecidableEq, Repr

/-- The string written for a UStatus value. -/
def UStatus.toStr : UStatus → String
  | .active => "active"
  | .blocked => "blocked"

/-- MemStorage.updateUserStatus: resolve the id to a numeric key, look the
user up, then write the new status; blockedReason is set to the given
reason only when blocking with a truthy (non-empty) reason, reset to
null when activating, and otherwise left unchanged. -/
def MemStorage.updateUserStatus (st : MemStorage) (id : Value) (status : UStatus)
    (blockedReason : Option String) : Option User × MemStorage :=
  match resolveNumericId id with
  | none => (none, st)
  | some (.num n) =>
    match mget st.users n with
    | none => (none, st)
    | some existingUser =>
      let newReason : Option String :=
        match status, blockedReason with
        | .blocked, some r => if r == "" then existingUser.blockedReason else some r
        | .blocked, none => existingUser.blockedReason
        | .active, _ => none
      let updatedUser := { existingUser with status := status.toStr, blockedReason := newReason }
      (some updatedUser, { st with users := mset st.users n updatedUser })
  | some _ => (none, st)

/-- MemStorage.deleteUser: resolve the id to a numeric key (returning with
no change when that fails), delete the user under that key, then delete
every service, job and application whose userId strictly equals the
numeric id.  Orders and reviews are not touched. -/
def MemStorage.deleteUser (st : MemStorage) (id : Value) : MemStorage :=
  match resolveNumericId id with
  | none => st
  | some nid =>
    let users1 :=
      match nid with
      | .num n => mdel st.users n
      | _ => st.users
    let userServices := ((mvalues st.services).filter (fun s => seq s.userId nid)).map Service.id
    let userJobs := ((mvalues st.jobs).filter (fun j => seq j.userId nid)).map Job.id
    let userApplications :=
      ((mvalues st.applications).filter (fun a => seq a.userId nid)).map Application.id
    { st with
      users := users1
      services := userServices.foldl mdel st.services
      jobs := userJobs.foldl mdel st.jobs
      applications := userApplications.foldl mdel st.applications }

/-- The argument record of MemStorage.createApplication (the route builds
it from the request body plus the converted jobId and a status field). -/
structure InsertApplication where
  jobId : Value
  coverLetter : String
  status : String
  resumeFile : Option String
deriving DecidableEq, Repr

/-- MemStorage.getUserApplications: every stored application whose userId
strictly equals the normalized user id. -/
def MemStorage.getUserApplications (st : MemStorage) (userId : Value) : List Application :=
  let numericUserId := normalizeId userId
  (mvalues st.applications).filter (fun a => seq a.userId numericUserId)

/-- MemStorage.createApplication: take the next counter id, normalize the
user id, and store the new application with status forced to pending,
whatever status the insert data carries. -/
def MemStorage.createApplication (st : MemStorage) (userId : Value)
    (application : InsertApplication) (now : Nat) : Application × MemStorage :=
  let id := st.currentApplicationId
  let numericUserId := normalizeId userId
  let newApplication : Application := {
    id := id
    userId := numericUserId
    jobId := application.jobId
    coverLetter := application.coverLetter
    createdAt := now
    status := "pending"
    resumeFile := jsOrNull application.resumeFile }
  (newApplication,
    { st with applications := mset st.applications id newApplication,
              currentApplicationId := id + 1 })

/-- The status argument type of MemStorage.updateApplicationStatus. -/
inductive AStatus where
  | pending
  | approved
  | rejected
deriving DecidableEq, Repr

/-- The string written for an AStatus value. -/
def AStatus.toStr : AStatus → String
  | .pending => "pending"
  | .approved => "approved"
  | .rejected => "rejected"

/-- MemStorage.updateApplicationStatus: resolve the id to a numeric key,
look the application up, and overwrite only its status field. -/
def MemStorage.updateApplicationStatus (st : MemStorage) (id : Value) (status : AStatus) :
    Option Application × MemStorage :=
  match resolveNumericId id with
  | none => (none, st)
  | some (.num n) =>
    match mget st.applications n with
    | none => (none, st)
    | some existingApplication =>
      let updatedApplication := { existingApplication with status := status.toStr }
      (some updatedApplication,
        { st with applications := mset st.applications n updatedApplication })
  | some _ => (none, st)

/-- A scalar JSON value of a (flat) response body. -/
inductive JValue where
  | s (v : String)
  | i (v : Int)
  | nullv
deriving DecidableEq, Repr

/-- A JSON response body: either null or a flat object.  Every body the
modelled handlers send is of this shape. -/
inductive JBody where
  | jnull
  | jobj (fields : List (String × JValue))
deriving DecidableEq, Repr

/-- Field lookup in a response body. -/
def jlookup (b : JBody) (k : String) : Option JValue :=
  match b with
  | .jnull => none
  | .jobj fields => (fields.find? (fun p => p.1 == k)).map (fun p => p.2)

/-- An HTTP response: status code and JSON body. -/
structure Response where
  code : Int
  body : JBody
deriving DecidableEq, Repr

/-- The { message } error body used throughout the routes. -/
def msgBody (m : String) : JBody :=
  .jobj [("message", JValue.s m)]

/-- JSON serialization of an optional string field. -/
def optJV : Option String → JValue
  | some s => .s s
  | none => .nullv

/-- JSON serialization of a JS id value (JSON.stringify turns NaN into
null). -/
def valueJV : Value → JValue
  | .num n => .i n
  | .nan => .nullv
  | .str s => .s s

/-- The fields of a user object as it would be JSON-serialized. -/
def userFields (u : User) : List (String × JValue) :=
  [("id", JValue.i u.id),
   ("username", JValue.s u.username),
   ("email", JValue.s u.email),
   ("password", JValue.s u.password),
   ("fullName", JValue.s u.fullName),
   ("role", JValue.s u.role),
   ("status", JValue.s u.status),
   ("blockedReason", optJV u.blockedReason),
   ("bio", optJV u.bio),
   ("profilePicture", optJV u.profilePicture),
   ("createdAt", JValue.i (Int.ofNat u.createdAt))]

/-- The rest-destructuring pattern const (brace password, ...safeUser
brace) = user: every own field except password. -/
def safeUserFields (u : User) : List (String × JValue) :=
  (userFields u).filter (fun p => p.1 != "password")

/-- The fields of an application object as JSON-serialized. -/
def applicationFields (a : Application) : List (String × JValue) :=
  [("id", JValue.i a.id),
   ("userId", valueJV a.userId),
   ("jobId", valueJV a.jobId),
   ("coverLetter", JValue.s a.coverLetter),
   ("status", JValue.s a.status),
   ("resumeFile", optJV a.resumeFile),
   ("createdAt", JValue.i (Int.ofNat a.createdAt))]

/-- A hexadecimal character, as matched by the character class
[0-9a-fA-F] of the ObjectId regex. -/
def hexCharB (c : Char) : Bool :=
  c.isDigit || (decide ('a' ≤ c) && decide (c ≤ 'f')) ||
    (decide ('A' ≤ c) && decide (c ≤ 'F'))

/-- The match of req.params.id against the ObjectId regex: exactly 24
hexadecimal characters. -/
def isHex24 (s : String) : Bool :=
  s.length == 24 && s.data.all hexCharB

/-- The id conversion at the top of several routes: a 24-character hex
ObjectId is kept as a string, any other param is run through parseInt
(NaN when unparsable). -/
def convertIdParam (s : String) : Value :=
  if isHex24 s then .str s
  else
    match parseIntJS s with
    | some n => .num n
    | none => .nan

/-- POST /api/auth/register after insertUserSchema.parse succeeded (a
parse failure is caught and yields a 400 with the error message).  The
bcrypt hash and the success of req.login are abstract parameters. -/
def registerRoute (st : MemStorage) (userData : InsertUser) (hash : String → String)
    (loginOk : Bool) (now : Nat) : Response × MemStorage :=
  if userData.password != userData.confirmPassword then
    (⟨400, msgBody ("Passwords do not match")⟩, st)
  else
    match MemStorage.getUserByUsername st userData.username with
    | some _ => (⟨400, msgBody ("Username already exists")⟩, st)
    | none =>
      match MemStorage.getUserByEmail st userData.email with
      | some _ => (⟨400, msgBody ("Email already exists")⟩, st)
      | none =>
        let res :=
          MemStorage.createUser st { userData with password := hash userData.password } now
        if loginOk then (⟨201, JBody.jobj (safeUserFields res.1)⟩, res.2)
        else (⟨500, msgBody ("Error logging in after registration")⟩, res.2)

/-- The outcome of the passport LocalStrategy verify callback:
done(null, user) or done(null, false, message). -/
inductive AuthResult where
  | success (user : User)
  | failure (message : String)
deriving DecidableEq, Repr

/-- The LocalStrategy verify callback: normalize the username to
lowercase, look the user up, refuse a falsy (empty) stored password,
then compare with bcrypt when the stored password carries a bcrypt
prefix and with plain string equality otherwise.  bcrypt.compare is the
abstract total parameter bcryptCompare. -/
def localStrategyVerify (st : MemStorage) (bcryptCompare : String → String → Bool)
    (username password : String) : AuthResult :=
  let normalizedUsername := jsTrim (jsToLower username)
  match MemStorage.getUserByUsername st normalizedUsername with
  | none => .failure ("User not found")
  | some user =>
    if user.password == "" then .failure ("User has no password")
    else
      if jsStartsWith user.password ("$2b$") || jsStartsWith user.password ("$2a$") then
        if bcryptCompare password user.password then .success user
        else .failure ("Invalid password")
      else
        if user.password == password then .success user
        else .failure ("Invalid password")

/-- POST /api/auth/login after loginSchema.parse succeeded.  The
development-only details field of the 401 body is omitted. -/
def loginRoute (st : MemStorage) (bcryptCompare : String → String → Bool)
    (username password : String) (loginOk : Bool) : Response :=
  if username == "" || password == "" then
    ⟨400, msgBody ("Username and password are required")⟩
  else
    match localStrategyVerify st bcryptCompare username password with
    | .failure _ => ⟨401, msgBody ("Invalid username or password")⟩
    | .success user =>
      if loginOk then
        ⟨200, JBody.jobj (safeUserFields user ++ [("message", JValue.s ("Login successful"))])⟩
      else ⟨500, msgBody ("Error creating login session")⟩

/-- GET /api/auth/me: 401 with a null body when unauthenticated,
otherwise the session user without its password and _rawPassword
fields. -/
def meRoute (sessionUser : Option User) : Response :=
  match sessionUser with
  | none => ⟨401, JBody.jnull⟩
  | some u =>
    ⟨200, JBody.jobj ((userFields u).filter
      (fun p => p.1 != "password" && p.1 != "_rawPassword"))⟩

/-- GET /api/users/:id, generic over the storage backend: the try/catch
around the storage lookup is embedded as an Except-valued fetch; a
thrown error produces the 500 branch. -/
def getUserByIdRoute (fetch : Value → Except String (Option User)) (idParam : String) :
    Response :=
  match fetch (convertIdParam idParam) with
  | .error e => ⟨500, msgBody e⟩
  | .ok none => ⟨404, msgBody ("User not found")⟩
  | .ok (some user) => ⟨200, JBody.jobj (safeUserFields user)⟩

/-- The MemStorage instantiation of the GET /api/users/:id lookup:
MemStorage.getUser never throws. -/
def memFetchUser (st : MemStorage) (id : Value) : Except String (Option User) :=
  .ok (MemStorage.getUser st id)

/-- POST /api/jobs/:id/applications for an authenticated user (the
isAuthenticated guard has passed, so userId is the numeric id of a
stored user).  File upload handling does not change the recorded
fields beyond resumeFile, which stays abstract inside the body. -/
def applyToJobRoute (st : MemStorage) (jobIdParam : String) (userId : Int)
    (body : InsertApplication) (now : Nat) : Response × MemStorage :=
  let jobId := convertIdParam jobIdParam
  match MemStorage.getJob st jobId with
  | none => (⟨404, msgBody ("Job not found")⟩, st)
  | some job =>
    if jsString job.userId == jsString (.num userId) then
      (⟨400, msgBody ("You cannot apply to your own job")⟩, st)
    else
      let userApplications := MemStorage.getUserApplications st (.num userId)
      if (userApplications.find? (fun a => jsString a.jobId == jsString jobId)).isSome then
        (⟨400, msgBody ("You have already applied to this job")⟩, st)
      else
        let res := MemStorage.createApplication st (.num userId)
          { body with jobId := jobId, status := "pending" } now
        (⟨201, JBody.jobj (applicationFields res.1)⟩, res.2)

/-- PUT /api/applications/:id/status for an authenticated user: the
requested status must be approved or rejected, the application and its
job must exist, and the caller must own the job. -/
def updateApplicationStatusRoute (st : MemStorage) (idParam : String)
    (status : Option String) (userId : Int) : Response × MemStorage :=
  match status with
  | none => (⟨400, msgBody ("Invalid status")⟩, st)
  | some s =>
    if s == "" || !(s == "approved" || s == "rejected") then
      (⟨400, msgBody ("Invalid status")⟩, st)
    else
      let id := convertIdParam idParam
      match MemStorage.getApplication st id with
      | none => (⟨404, msgBody ("Application not found")⟩, st)
      | some application =>
        match MemStorage.getJob st application.jobId with
        | none => (⟨404, msgBody ("Job not found")⟩, st)
        | some job =>
          if jsString job.userId != jsString (.num userId) then
            (⟨403, msgBody ("You don\x27t have permission to update this application")⟩, st)
          else
            let astatus := if s == "approved" then AStatus.approved else AStatus.rejected
            let res := MemStorage.updateApplicationStatus st id astatus
            ((⟨200, match res.1 with
                    | some a => JBody.jobj (applicationFields a)
                    | none => JBody.jnull⟩ : Response), res.2)

/-- An incoming request as the auth middleware sees it: the deserialized
session user, if any.  req.isAuthenticated() and req.user both reflect
this session state. -/
structure Req where
  sessionUser : Option User

/-- req.isAuthenticated() of passport. -/
def reqIsAuthenticated (req : Req) : Bool :=
  req.sessionUser.isSome

/-- What a middleware does: short-circuit with a response, or call
next(). -/
inductive MWResult where
  | respond (code : Int) (message : String)
  | proceed
deriving DecidableEq, Repr

/-- The isAuthenticated helper of server/routes.ts. -/
def isAuthenticatedMW (req : Req) : MWResult :=
  if reqIsAuthenticated req then .proceed
  else .respond 401 ("Unauthorized")

/-- The isAdmin middleware of server/middleware/isAdmin.ts. -/
def isAdminMW (req : Req) : MWResult :=
  if !(reqIsAuthenticated req) then .respond 401 ("Unauthorized, please log in")
  else
    match req.sessionUser with
    | some u =>
      if u.role == "admin" then .proceed
      else .respond 403 ("Access denied. Admin privileges required.")
    | none => .respond 403 ("Access denied. Admin privileges required.")

/-- Running a guarded route: the middleware either responds (handler
never runs, second component false) or passes control to the handler
(second component true). -/
def runGuarded (mw : Req → MWResult) (handler : Req → Response) (req : Req) :
    Response × Bool :=
  match mw req with
  | .respond code message => (⟨code, msgBody message⟩, false)
  | .proceed => (handler req, true)

/-- Any hexadecimal character sits strictly above the minus sign in
code-point order. -/
theorem dash_lt_of_hexCharB (c : Char) (h : hexCharB c = true) : '-' < c := by
  simp only [hexCharB, Bool.or_eq_true, Bool.and_eq_true, decide_eq_true_eq,
    Char.isDigit, ge_iff_le] at h
  rcases h with (⟨h1, _⟩ | ⟨h1, _⟩) | ⟨h1, _⟩
  · exact lt_of_lt_of_le (show '-' < '0' by decide) h1
  · exact lt_of_lt_of_le (show '-' < 'a' by decide) h1
  · exact lt_of_lt_of_le (show '-' < 'A' by decide) h1

/-- A hexadecimal character is neither parseInt whitespace nor a sign. -/
theorem hexCharB_not_special (c : Char) (h : hexCharB c = true) :
    jsWhitespace c = false ∧ (c == '-') = false ∧ (c == '+') = false := by
  have h0 : '-' < c := dash_lt_of_hexCharB c h
  refine ⟨?_, ?_, ?_⟩
  · by_contra hw
    rw [Bool.not_eq_false] at hw
    simp only [jsWhitespace, Bool.or_eq_true, beq_iff_eq] at hw
    rcases hw with ((((h1 | h2) | h3) | h4) | h5) | h6 <;> (subst_vars; revert h0; decide)
  · by_contra hc
    rw [Bool.not_eq_false, beq_iff_eq] at hc
    subst hc
    exact lt_irrefl _ h0
  · by_contra hc
    rw [Bool.not_eq_false, beq_iff_eq] at hc
    subst hc
    revert h0
    decide

/-- The first character of a 24-character hexadecimal id is hexadecimal. -/
theorem hexCharB_head (s : String) (c : Char) (cs : List Char)
    (hhex : isHex24 s = true) (hdata : s.data = c :: cs) : hexCharB c = true := by
  simp only [isHex24, Bool.and_eq_true, List.all_eq_true] at hhex
  exact hhex.2 c (by rw [hdata]; exact List.mem_cons_self c cs)

/-- On a string whose first character is hexadecimal, parseInt reduces to
the value of the leading digit run. -/
theorem parseIntJS_hex_head (s : String) (c : Char) (cs : List Char)
    (hc : hexCharB c = true) (hdata : s.data = c :: cs) :
    parseIntJS s = (digitsValue (c :: cs)).map (fun n => (n : Int)) := by
  obtain ⟨hws, hdash, hplus⟩ := hexCharB_not_special c hc
  simp [parseIntJS, hdata, List.dropWhile_cons, hws, hdash, hplus]

/-- A list headed by a non-digit has no leading digit run. -/
theorem digitsValue_cons_of_not_digit (c : Char) (cs : List Char)
    (h : c.isDigit = false) : digitsValue (c :: cs) = none := by
  simp [digitsValue, List.takeWhile_cons, h]

/-- A list headed by a digit has a leading digit run. -/
theorem digitsValue_cons_of_digit (c : Char) (cs : List Char)
    (h : c.isDigit = true) : ∃ v, digitsValue (c :: cs) = some v := by
  simp [digitsValue, List.takeWhile_cons, h]

/-- Claim C1 (amended): for a 24-character hexadecimal id, MemStorage
resolves only numeric ids, but parseInt accepts any hex id whose first
character is a decimal digit.  So getUser and getService return
undefined exactly when the hex id starts with a letter; a hex id with a
leading digit is looked up under the number parseInt extracts from its
leading digit run, and can return a stored user or service. -/
theorem c1_hex_id_lookup (st : MemStorage) (s : String) (c : Char) (cs : List Char)
    (hhex : isHex24 s = true) (hdata : s.data = c :: cs) :
    (c.isDigit = false →
      MemStorage.getUser st (Value.str s) = none ∧
      MemStorage.getService st (Value.str s) = none)
  ∧ (c.isDigit = true →
      ∃ n, parseIntJS s = some n ∧
        MemStorage.getUser st (Value.str s) = mget st.users n ∧
        MemStorage.getService st (Value.str s) = mget st.services n) := by
  have hc := hexCharB_head s c cs hhex hdata
  have hp := parseIntJS_hex_head s c cs hc hdata
  constructor
  · intro hd
    have hnone : parseIntJS s = none := by
      rw [hp, digitsValue_cons_of_not_digit c cs hd]
      rfl
    constructor
    · simp [MemStorage.getUser, hnone]
    · simp [MemStorage.getService, hnone]
  · intro hd
    obtain ⟨v, hv⟩ := digitsValue_cons_of_digit c cs hd
    refine ⟨(v : Int), ?_, ?_, ?_⟩
    · rw [hp, hv]
      rfl
    · simp [MemStorage.getUser, hp, hv]
    · simp [MemStorage.getService, hp, hv]

/-- A sample stored user (as MemStorage.createUser would produce under
id 1). -/
def aliceUser : User :=
  ⟨1, "alice", "alice@example.com", "secret", "Alice A", "freelancer", "active",
    none, none, none, 0⟩

/-- A sample stored service owned by user 1. -/
def svcOne : Service :=
  ⟨1, .num 1, "Logo design", 50, "design", "active", none, 0⟩

/-- A sample MemStorage state holding one user and one service. -/
def sampleStore : MemStorage :=
  ⟨[(1, aliceUser)], [(1, svcOne)], [], [], [], [], 2, 2, 1, 1, 1, 1⟩

/-- Claim C1 counterexample: a 24-character hexadecimal ObjectId-style id
whose first character is a digit is looked up under its parseInt value,
so getUser and getService do return stored records, contradicting the
claim that every 24-character hexadecimal id yields undefined. -/
theorem c1_counterexample :
    isHex24 ("1aaaaaaaaaaaaaaaaaaaaaaa") = true ∧
    MemStorage.getUser sampleStore (Value.str ("1aaaaaaaaaaaaaaaaaaaaaaa")) = some aliceUser ∧
    MemStorage.getService sampleStore (Value.str ("1aaaaaaaaaaaaaaaaaaaaaaa")) = some svcOne := by
  refine ⟨by decide, by decide, by decide⟩

/-- Witness for c1_hex_id_lookup at a concrete letter-headed hex id. -/
theorem c1_hex_id_lookup_witness :
    MemStorage.getUser sampleStore (Value.str ("abcdefabcdefabcdefabcdef")) = none ∧
    MemStorage.getService sampleStore (Value.str ("abcdefabcdefabcdefabcdef")) = none :=
  (c1_hex_id_lookup sampleStore ("abcdefabcdefabcdefabcdef") 'a'
    (("bcdefabcdefabcdefabcdef").data) (by decide) (by decide)).1 (by decide)

/-- Claim C2 (amended): when the parsed registration data has matching
password and confirmPassword and a stored user already has the
submitted username, the register route answers 400 with the message
Username already exists, and the store is returned unchanged. -/
theorem c2_duplicate_username (st : MemStorage) (d : InsertUser)
    (hash : String → String) (loginOk : Bool) (now : Nat) (existing : User)
    (hpw : d.password = d.confirmPassword)
    (hdup : MemStorage.getUserByUsername st d.username = some existing) :
    registerRoute st d hash loginOk now =
      (⟨400, msgBody ("Username already exists")⟩, st) := by
  simp [registerRoute, hpw, hdup]

/-- Registration data with the existing username but mismatched password
confirmation. -/
def dupRegMismatch : InsertUser :=
  ⟨"alice", "new@example.com", "a", "b", "New Alice", none, none, none⟩

/-- Claim C2 counterexample: with a duplicate username but mismatched
password confirmation the route answers 400 with the message Passwords
do not match, not Username already exists, because the password check
runs first; so the claim as stated (any duplicate-username request gets
the Username already exists message) is false. -/
theorem c2_counterexample :
    MemStorage.getUserByUsername sampleStore (dupRegMismatch.username) = some aliceUser ∧
    registerRoute sampleStore dupRegMismatch (fun p => p) true 0 =
      (⟨400, msgBody ("Passwords do not match")⟩, sampleStore) ∧
    msgBody ("Passwords do not match") ≠ msgBody ("Username already exists") := by
  refine ⟨by decide, by decide, by decide⟩

/-- Registration data with the existing username and matching password
confirmation. -/
def dupRegMatching : InsertUser :=
  ⟨"alice", "new@example.com", "a", "a", "New Alice", none, none, none⟩

/-- Witness for c2_duplicate_username at a concrete duplicate request. -/
theorem c2_duplicate_username_witness :
    registerRoute sampleStore dupRegMatching (fun p => p) true 0 =
      (⟨400, msgBody ("Username already exists")⟩, sampleStore) :=
  c2_duplicate_username sampleStore dupRegMatching (fun p => p) true 0 aliceUser rfl
    (by decide)

/-- Claim C6: an unauthenticated request never reaches a handler behind
isAuthenticated (it gets a 401 JSON message) nor one behind isAdmin
(401 when unauthenticated, 403 when the session user is not an admin),
and the isAdmin-guarded handler runs exactly for authenticated
admins. -/
theorem c6_auth_guards (handler : Req → Response) (req : Req) :
    (req.sessionUser = none →
      runGuarded isAuthenticatedMW handler req =
        (⟨401, msgBody ("Unauthorized")⟩, false) ∧
      runGuarded isAdminMW handler req =
        (⟨401, msgBody ("Unauthorized, please log in")⟩, false))
  ∧ (∀ u, req.sessionUser = some u →
      runGuarded isAuthenticatedMW handler req = (handler req, true))
  ∧ (∀ u, req.sessionUser = some u → u.role ≠ "admin" →
      runGuarded isAdminMW handler req =
        (⟨403, msgBody ("Access denied. Admin privileges required.")⟩, false))
  ∧ (∀ u, req.sessionUser = some u → u.role = "admin" →
      runGuarded isAdminMW handler req = (handler req, true))
  ∧ ((runGuarded isAdminMW handler req).2 = true →
      ∃ u, req.sessionUser = some u ∧ u.role = "admin") := by
  obtain ⟨su⟩ := req
  refine ⟨?_, ?_, ?_, ?_, ?_⟩
  · rintro rfl
    exact ⟨rfl, rfl⟩
  · rintro u rfl
    rfl
  · rintro u rfl hrole
    have : (u.role == "admin") = false := by
      simpa using hrole
    simp [runGuarded, isAdminMW, reqIsAuthenticated, this]
  · rintro u rfl hrole
    have : (u.role == "admin") = true := by
      simpa using hrole
    simp [runGuarded, isAdminMW, reqIsAuthenticated, this]
  · intro hran
    cases su with
    | none => simp [runGuarded, isAdminMW, reqIsAuthenticated] at hran
    | some u =>
      cases hrole : u.role == "admin" with
      | true => exact ⟨u, rfl, by simpa using hrole⟩
      | false => simp [runGuarded, isAdminMW, reqIsAuthenticated, hrole] at hran

/-- A request with an admin session user, for the witness. -/
def adminUser : User :=
  ⟨9, "root", "root@example.com", "pw", "Root", "admin", "active", none, none, none, 0⟩

/-- Witness for c6_auth_guards at concrete requests. -/
theorem c6_auth_guards_witness :
    runGuarded isAuthenticatedMW (fun _ => ⟨200, JBody.jnull⟩) ⟨none⟩ =
      (⟨401, msgBody ("Unauthorized")⟩, false) ∧
    runGuarded isAdminMW (fun _ => ⟨200, JBody.jnull⟩) ⟨some aliceUser⟩ =
      (⟨403, msgBody ("Access denied. Admin privileges required.")⟩, false) ∧
    runGuarded isAdminMW (fun _ => ⟨200, JBody.jnull⟩) ⟨some adminUser⟩ =
      (⟨200, JBody.jnull⟩, true) :=
  ⟨((c6_auth_guards (fun _ => ⟨200, JBody.jnull⟩) ⟨none⟩).1 rfl).1,
   (c6_auth_guards (fun _ => ⟨200, JBody.jnull⟩) ⟨some aliceUser⟩).2.2.1 aliceUser rfl
     (by decide),
   (c6_auth_guards (fun _ => ⟨200, JBody.jnull⟩) ⟨some adminUser⟩).2.2.2.1 adminUser rfl rfl⟩

/-- The password key never survives the safe-user destructuring. -/
theorem jlookup_safe_password (u : User) :
    jlookup (JBody.jobj (safeUserFields u)) ("password") = none := rfl

/-- Claim C7: the GET /api/users/:id handler answers exactly one of three
responses: 200 with the found user minus its password, 404 with User
not found when the lookup misses, and 500 with the error message when
the storage lookup throws; being a total function of the fetch outcome,
it propagates no exception. -/
theorem c7_get_user_route (fetch : Value → Except String (Option User)) (idParam : String) :
    (∃ u, fetch (convertIdParam idParam) = .ok (some u) ∧
      getUserByIdRoute fetch idParam = ⟨200, JBody.jobj (safeUserFields u)⟩ ∧
      jlookup (getUserByIdRoute fetch idParam).body ("password") = none)
  ∨ (fetch (convertIdParam idParam) = .ok none ∧
      getUserByIdRoute fetch idParam = ⟨404, msgBody ("User not found")⟩)
  ∨ (∃ e, fetch (convertIdParam idParam) = .error e ∧
      getUserByIdRoute fetch idParam = ⟨500, msgBody e⟩) := by
  cases hf : fetch (convertIdParam idParam) with
  | error e =>
    exact Or.inr (Or.inr ⟨e, rfl, by simp [getUserByIdRoute, hf]⟩)
  | ok o =>
    cases o with
    | none => exact Or.inr (Or.inl ⟨rfl, by simp [getUserByIdRoute, hf]⟩)
    | some u =>
      refine Or.inl ⟨u, rfl, by simp [getUserByIdRoute, hf], ?_⟩
      simp only [getUserByIdRoute, hf]
      exact jlookup_safe_password u

/-- Claim C8 (amended): for a stored user found under the normalized
username whose password is non-empty, the local strategy succeeds
exactly by plain string equality when the stored password has no bcrypt
prefix, and exactly by bcrypt.compare acceptance when it does.  (An
empty stored password is rejected before any comparison.) -/
theorem c8_password_check (st : MemStorage) (cmp : String → String → Bool)
    (username password : String) (user : User)
    (hfind : MemStorage.getUserByUsername st (jsTrim (jsToLower username)) = some user)
    (hne : user.password ≠ "") :
    ((jsStartsWith user.password ("$2b$") || jsStartsWith user.password ("$2a$")) = false →
      (localStrategyVerify st cmp username password = .success user ↔
        user.password = password))
  ∧ ((jsStartsWith user.password ("$2b$") || jsStartsWith user.password ("$2a$")) = true →
      (localStrategyVerify st cmp username password = .success user ↔
        cmp password user.password = true)) := by
  have hne2 : (user.password == "") = false := by
    simpa using hne
  constructor
  · intro hpre
    simp only [localStrategyVerify, hfind, hne2, hpre, Bool.false_eq_true, if_false]
    by_cases h : user.password == password
    · simp [h]
      exact eq_of_beq h
    · simp [h]
      intro he
      rw [he] at h
      simp at h
  · intro hpre
    simp only [localStrategyVerify, hfind, hne2, hpre, if_true, Bool.false_eq_true, if_false]
    by_cases h : cmp password user.password
    · simp [h]
    · simp [h]

/-- A stored user whose password is the empty string (reachable, for
instance, through the unvalidated profile-update route). -/
def bobUser : User :=
  ⟨2, "bob", "bob@example.com", "", "Bob B", "freelancer", "active", none, none, none, 0⟩

/-- A store holding the empty-password user. -/
def storeWithBob : MemStorage :=
  ⟨[(1, aliceUser), (2, bobUser)], [], [], [], [], [], 3, 1, 1, 1, 1, 1⟩

/-- Claim C8 counterexample: the stored password is empty, so it has no
bcrypt prefix and equals the submitted empty password, yet
authentication fails with User has no password instead of succeeding;
the claimed plaintext-equality characterization is false there. -/
theorem c8_counterexample :
    bobUser.password = "" ∧
    jsStartsWith bobUser.password ("$2b$") = false ∧
    jsStartsWith bobUser.password ("$2a$") = false ∧
    MemStorage.getUserByUsername storeWithBob (jsTrim (jsToLower ("bob"))) = some bobUser ∧
    localStrategyVerify storeWithBob (fun _ _ => true) "bob" "" =
      .failure ("User has no password") := by
  refine ⟨rfl, by decide, by decide, by decide, by decide⟩

/-- Witness for c8_password_check at a concrete plaintext-password user. -/
theorem c8_password_check_witness :
    localStrategyVerify sampleStore (fun _ _ => false) "alice" "secret" =
      .success aliceUser :=
  ((c8_password_check sampleStore (fun _ _ => false) "alice" "secret" aliceUser
    (by decide) (by decide)).1 (by decide)).mpr rfl

/-- The password key never survives the login-route body construction. -/
theorem jlookup_login_password (u : User) :
    jlookup (JBody.jobj (safeUserFields u ++ [("message", JValue.s ("Login successful"))]))
      ("password") = none := rfl

/-- The password key never survives the me-route destructuring. -/
theorem jlookup_me_password (u : User) :
    jlookup (JBody.jobj ((userFields u).filter
      (fun p => p.1 != "password" && p.1 != "_rawPassword"))) ("password") = none := rfl

/-- Claim C9: no successful JSON response of the register, login, me, or
get-user-by-id handlers carries a password field; each success body is
built by destructuring the password out of the user object. -/
theorem c9_no_password_leak (st : MemStorage) (d : InsertUser) (hash : String → String)
    (loginOk : Bool) (now : Nat) (cmp : String → String → Bool)
    (username password : String) (sessionUser : Option User)
    (fetch : Value → Except String (Option User)) (idParam : String) :
    ((registerRoute st d hash loginOk now).1.code = 201 →
      jlookup (registerRoute st d hash loginOk now).1.body ("password") = none)
  ∧ ((loginRoute st cmp username password loginOk).code = 200 →
      jlookup (loginRoute st cmp username password loginOk).body ("password") = none)
  ∧ ((meRoute sessionUser).code = 200 →
      jlookup (meRoute sessionUser).body ("password") = none)
  ∧ ((getUserByIdRoute fetch idParam).code = 200 →
      jlookup (getUserByIdRoute fetch idParam).body ("password") = none) := by
  refine ⟨?_, ?_, ?_, ?_⟩
  · unfold registerRoute
    split
    · intro h
      simp at h
    · split
      · intro h
        simp at h
      · split
        · intro h
          simp at h
        · split
          · intro _
            exact jlookup_safe_password _
          · intro h
            simp at h
  · unfold loginRoute
    split
    · intro h
      simp at h
    · split
      · intro h
        simp at h
      · split
        · intro _
          exact jlookup_login_password _
        · intro h
          simp at h
  · cases sessionUser with
    | none =>
      intro h
      simp [meRoute] at h
    | some u =>
      intro _
      exact jlookup_me_password u
  · unfold getUserByIdRoute
    split
    · intro h
      simp at h
    · intro h
      simp at h
    · intro _
      exact jlookup_safe_password _

/-- Fresh registration data for the witness. -/
def carolRegData : InsertUser :=
  ⟨"carol", "carol@example.com", "pw", "pw", "Carol C", none, none, none⟩

/-- Witness for c9_no_password_leak: all four handlers at concrete
successful requests. -/
theorem c9_no_password_leak_witness :
    jlookup (registerRoute sampleStore carolRegData (fun p => p) true 0).1.body
      ("password") = none ∧
    jlookup (loginRoute sampleStore (fun _ _ => false) "alice" "secret" true).body
      ("password") = none ∧
    jlookup (meRoute (some aliceUser)).body ("password") = none ∧
    jlookup (getUserByIdRoute (memFetchUser sampleStore) "1").body ("password") = none :=
  ⟨(c9_no_password_leak sampleStore carolRegData (fun p => p) true 0 (fun _ _ => false)
      "alice" "secret" (some aliceUser) (memFetchUser sampleStore) "1").1 (by decide),
   (c9_no_password_leak sampleStore carolRegData (fun p => p) true 0 (fun _ _ => false)
      "alice" "secret" (some aliceUser) (memFetchUser sampleStore) "1").2.1 (by decide),
   (c9_no_password_leak sampleStore carolRegData (fun p => p) true 0 (fun _ _ => false)
      "alice" "secret" (some aliceUser) (memFetchUser sampleStore) "1").2.2.1 (by decide),
   (c9_no_password_leak sampleStore carolRegData (fun p => p) true 0 (fun _ _ => false)
      "alice" "secret" (some aliceUser) (memFetchUser sampleStore) "1").2.2.2 (by decide)⟩

/-- Unfolding Map.get over a cons cell. -/
theorem mget_cons {α : Type} (q : Int × α) (m : List (Int × α)) (k : Int) :
    mget (q :: m) k = if q.1 == k then some q.2 else mget m k := by
  simp only [mget, List.find?]
  cases h : q.1 == k <;> simp [h]

/-- In the overwrite branch of Map.set, a key that was previously absent
can only surface as the written key carrying the written value. -/
theorem mget_map_overwrite {α : Type} (m : List (Int × α)) (k : Int) (v : α) (k2 : Int)
    (a : α) (hold : mget m k2 = none)
    (hnew : mget (m.map (fun p => if p.1 == k then (k, v) else p)) k2 = some a) :
    k2 = k ∧ a = v := by
  induction m with
  | nil => simp [mget] at hnew
  | cons p m ih =>
    rw [mget_cons] at hold
    rw [List.map_cons, mget_cons] at hnew
    by_cases hp : (p.1 == k) = true
    · rw [if_pos hp] at hnew
      by_cases hk2 : ((k, v).1 == k2) = true
      · rw [if_pos hk2] at hnew
        have : k = k2 := by simpa using hk2
        exact ⟨this.symm, by simpa using hnew.symm⟩
      · rw [if_neg (by simpa using hk2)] at hnew
        split at hold
        · exact absurd hold (by simp)
        · exact ih hold hnew
    · rw [if_neg hp] at hnew
      split at hold
      · exact absurd hold (by simp)
      · next hq =>
        rw [if_neg (by simpa using hq)] at hnew
        exact ih hold hnew

/-- A key absent before Map.set can afterwards only be found as the
written key carrying the written value. -/
theorem mget_mset_new {α : Type} (m : List (Int × α)) (k : Int) (v : α) (k2 : Int) (a : α)
    (hnew : mget (mset m k v) k2 = some a) (hold : mget m k2 = none) : k2 = k ∧ a = v := by
  unfold mset at hnew
  split at hnew
  · exact mget_map_overwrite m k v k2 a hold hnew
  · rw [mget, List.find?_append] at hnew
    have hfind : m.find? (fun p => p.1 == k2) = none := by
      simpa [mget, Option.map_eq_none'] using hold
    rw [hfind, Option.none_or] at hnew
    simp only [List.find?] at hnew
    by_cases hk : ((k, v).1 == k2) = true
    · rw [hk] at hnew
      refine ⟨?_, ?_⟩
      · exact (eq_of_beq hk).symm
      · simpa using hnew.symm
    · rw [Bool.not_eq_true] at hk
      rw [hk] at hnew
      simp at hnew

/-- Claim C3: when the authenticated user owns the target job (compared
via String conversion, as the route does), POST /api/jobs/:id/applications
answers 400 You cannot apply to your own job and leaves the store
untouched; consequently any application this route stores links a user
to a job of a different owner. -/
theorem c3_own_job_application (st : MemStorage) (jobIdParam : String) (userId : Int)
    (body : InsertApplication) (now : Nat) :
    (∀ job, MemStorage.getJob st (convertIdParam jobIdParam) = some job →
      jsString job.userId = jsString (Value.num userId) →
      applyToJobRoute st jobIdParam userId body now =
        (⟨400, msgBody ("You cannot apply to your own job")⟩, st))
  ∧ (∀ k a, mget (applyToJobRoute st jobIdParam userId body now).2.applications k = some a →
      mget st.applications k = none →
      ∃ job, MemStorage.getJob st a.jobId = some job ∧
        jsString a.userId ≠ jsString job.userId) := by
  constructor
  · intro job hjob heq
    have hbeq : (jsString job.userId == jsString (Value.num userId)) = true := by
      simpa using heq
    simp [applyToJobRoute, hjob, hbeq]
  · intro k a hnew hold
    simp only [applyToJobRoute] at hnew
    cases hjob : MemStorage.getJob st (convertIdParam jobIdParam) with
    | none =>
      rw [hjob] at hnew
      simp only at hnew
      rw [hold] at hnew
      exact absurd hnew (by simp)
    | some job =>
      rw [hjob] at hnew
      simp only at hnew
      by_cases hguard : (jsString job.userId == jsString (Value.num userId)) = true
      · rw [if_pos hguard] at hnew
        simp only at hnew
        rw [hold] at hnew
        exact absurd hnew (by simp)
      · rw [Bool.not_eq_true] at hguard
        rw [if_neg (by simp [hguard])] at hnew
        by_cases hdup : (((MemStorage.getUserApplications st (.num userId)).find?
            (fun a => jsString a.jobId == jsString (convertIdParam jobIdParam))).isSome) = true
        · rw [if_pos hdup] at hnew
          simp only at hnew
          rw [hold] at hnew
          exact absurd hnew (by simp)
        · rw [Bool.not_eq_true] at hdup
          rw [if_neg (by simp [hdup])] at hnew
          simp only [MemStorage.createApplication] at hnew
          obtain ⟨hk, ha⟩ := mget_mset_new _ _ _ _ _ hnew hold
          subst ha
          refine ⟨job, ?_, ?_⟩
          · exact hjob
          · intro hcontra
            apply absurd hguard
            simp only [Bool.not_eq_false, beq_iff_eq]
            exact hcontra.symm

/-- A sample job owned by user 1. -/
def jobOne : Job :=
  ⟨1, .num 1, "Build a site", 500, "web", "open", none, none, 0⟩

/-- A store with user 1 and their job 1. -/
def storeWithJob : MemStorage :=
  ⟨[(1, aliceUser)], [], [(1, jobOne)], [], [], [], 2, 1, 2, 1, 1, 1⟩

/-- A sample application request body. -/
def appBody : InsertApplication :=
  ⟨.nan, "I can do this", "pending", none⟩

/-- Witness for c3_own_job_application: the job owner applying to their
own job gets the 400 and the store stays unchanged. -/
theorem c3_own_job_application_witness :
    applyToJobRoute storeWithJob "1" 1 appBody 0 =
      (⟨400, msgBody ("You cannot apply to your own job")⟩, storeWithJob) :=
  (c3_own_job_application storeWithJob "1" 1 appBody 0).1 jobOne (by decide) (by decide)

/-- Every value present after Map.set was present before or is the
written value. -/
theorem mem_mvalues_mset {α : Type} (m : List (Int × α)) (k : Int) (v : α) (a : α)
    (h : a ∈ mvalues (mset m k v)) : a ∈ mvalues m ∨ a = v := by
  unfold mset at h
  split at h
  · simp only [mvalues, List.map_map, List.mem_map, Function.comp] at h
    obtain ⟨p, hp, hpa⟩ := h
    by_cases hk : (p.1 == k) = true
    · right
      rw [if_pos hk] at hpa
      exact hpa.symm
    · left
      rw [if_neg hk] at hpa
      simp only [mvalues, List.mem_map]
      exact ⟨p, hp, hpa⟩
  · simp only [mvalues, List.map_append, List.mem_append] at h
    rcases h with h | h
    · left
      simpa [mvalues] using h
    · right
      simpa using h

/-- The application status enum of the data model. -/
def appStatusEnum : List String := ["pending", "approved", "rejected"]

/-- Claim C4: createApplication stores status pending whatever the insert
data says, updateApplicationStatus writes only the three enum values
(and both preserve the all-statuses-in-enum invariant), and the status
route answers 400 Invalid status, changing nothing, whenever the
requested status is not approved or rejected. -/
theorem c4_application_status_enum (st : MemStorage) :
    (∀ (userId : Value) (a : InsertApplication) (now : Nat),
      (MemStorage.createApplication st userId a now).1.status = "pending"
      ∧ ((∀ x ∈ mvalues st.applications, x.status ∈ appStatusEnum) →
          ∀ x ∈ mvalues (MemStorage.createApplication st userId a now).2.applications,
            x.status ∈ appStatusEnum))
  ∧ (∀ (id : Value) (s : AStatus),
      (∀ app, (MemStorage.updateApplicationStatus st id s).1 = some app →
        app.status = s.toStr ∧ app.status ∈ appStatusEnum)
      ∧ ((∀ x ∈ mvalues st.applications, x.status ∈ appStatusEnum) →
          ∀ x ∈ mvalues (MemStorage.updateApplicationStatus st id s).2.applications,
            x.status ∈ appStatusEnum))
  ∧ (∀ (idParam : String) (status : Option String) (uid : Int),
      (∀ str, status = some str → str ∉ (["approved", "rejected"] : List String)) →
        updateApplicationStatusRoute st idParam status uid =
          (⟨400, msgBody ("Invalid status")⟩, st)) := by
  refine ⟨?_, ?_, ?_⟩
  · intro userId a now
    refine ⟨rfl, ?_⟩
    intro hinv x hx
    simp only [MemStorage.createApplication] at hx
    rcases mem_mvalues_mset _ _ _ _ hx with h | h
    · exact hinv x h
    · subst h
      simp [appStatusEnum]
  · intro id s
    constructor
    · intro app happ
      unfold MemStorage.updateApplicationStatus at happ
      split at happ
      · exact absurd happ (by simp)
      · split at happ
        · exact absurd happ (by simp)
        · simp only [Prod.fst, Option.some_inj] at happ
          subst happ
          refine ⟨rfl, ?_⟩
          cases s <;> simp [AStatus.toStr, appStatusEnum]
      · exact absurd happ (by simp)
    · intro hinv x hx
      unfold MemStorage.updateApplicationStatus at hx
      split at hx
      · exact hinv x hx
      · split at hx
        · exact hinv x hx
        · next existing hgot =>
          simp only at hx
          rcases mem_mvalues_mset _ _ _ _ hx with h | h
          · exact hinv x h
          · subst h
            cases s <;> simp [AStatus.toStr, appStatusEnum]
      · exact hinv x hx
  · intro idParam status uid hbad
    cases status with
    | none => rfl
    | some str =>
      have h1 : (str == "approved") = false := by
        have := hbad str rfl
        simp [appStatusEnum] at this
        simp [this.1]
      have h2 : (str == "rejected") = false := by
        have := hbad str rfl
        simp [appStatusEnum] at this
        simp [this.2]
      simp [updateApplicationStatusRoute, h1, h2]

/-- Witness for c4_application_status_enum: a concrete creation stores
pending, and a concrete invalid status request gets the 400. -/
theorem c4_application_status_enum_witness :
    (MemStorage.createApplication sampleStore (.num 1) appBody 0).1.status = "pending" ∧
    updateApplicationStatusRoute sampleStore "1" (some "pending") 1 =
      (⟨400, msgBody ("Invalid status")⟩, sampleStore) :=
  ⟨((c4_application_status_enum sampleStore).1 (.num 1) appBody 0).1,
   (c4_application_status_enum sampleStore).2.2 "1" (some "pending") 1
     (by intro str h; injection h with h2; subst h2; decide)⟩

/-- The user status enum of the data model. -/
def userStatusEnum : List String := ["active", "blocked"]

/-- Claim C5 (amended): createUser always stores status active and a null
blockedReason whatever the insert data contains; updateUserStatus
writes only active or blocked (preserving the statuses-in-enum
invariant), records a given non-empty reason when blocking, leaves the
previous blockedReason when blocking with a null or empty reason,
resets blockedReason to null when activating, and returns undefined
changing nothing when the id does not resolve to a stored user. -/
theorem c5_user_status_enum (st : MemStorage) :
    (∀ (d : InsertUser) (now : Nat),
      (MemStorage.createUser st d now).1.status = "active"
      ∧ (MemStorage.createUser st d now).1.blockedReason = none
      ∧ ((∀ x ∈ mvalues st.users, x.status ∈ userStatusEnum) →
          ∀ x ∈ mvalues (MemStorage.createUser st d now).2.users,
            x.status ∈ userStatusEnum))
  ∧ (∀ (id : Value) (s : UStatus) (r : Option String),
      ((MemStorage.updateUserStatus st id s r).1 = none →
        (MemStorage.updateUserStatus st id s r).2 = st)
      ∧ (∀ u, (MemStorage.updateUserStatus st id s r).1 = some u →
          u.status = s.toStr
          ∧ u.status ∈ userStatusEnum
          ∧ (s = UStatus.active → u.blockedReason = none)
          ∧ (∀ rr, r = some rr → rr ≠ "" → s = UStatus.blocked →
              u.blockedReason = some rr))
      ∧ ((∀ x ∈ mvalues st.users, x.status ∈ userStatusEnum) →
          ∀ x ∈ mvalues (MemStorage.updateUserStatus st id s r).2.users,
            x.status ∈ userStatusEnum)) := by
  constructor
  · intro d now
    refine ⟨rfl, rfl, ?_⟩
    intro hinv x hx
    simp only [MemStorage.createUser] at hx
    rcases mem_mvalues_mset _ _ _ _ hx with h | h
    · exact hinv x h
    · subst h
      simp [userStatusEnum]
  · intro id s r
    refine ⟨?_, ?_, ?_⟩
    · unfold MemStorage.updateUserStatus
      split
      · intro _
        rfl
      · split
        · intro _
          rfl
        · intro h
          exact absurd h (by simp)
      · intro _
        rfl
    · intro u hu
      unfold MemStorage.updateUserStatus at hu
      split at hu
      · exact absurd hu (by simp)
      · split at hu
        · exact absurd hu (by simp)
        · simp only [Option.some_inj] at hu
          subst hu
          refine ⟨rfl, ?_, ?_, ?_⟩
          · cases s <;> simp [UStatus.toStr, userStatusEnum]
          · rintro rfl
            rfl
          · rintro rr rfl hrr rfl
            have : (rr == "") = false := by
              simpa using hrr
            simp [this]
      · exact absurd hu (by simp)
    · intro hinv x hx
      unfold MemStorage.updateUserStatus at hx
      split at hx
      · exact hinv x hx
      · split at hx
        · exact hinv x hx
        · simp only at hx
          rcases mem_mvalues_mset _ _ _ _ hx with h | h
          · exact hinv x h
          · subst h
            cases s <;> simp [UStatus.toStr, userStatusEnum]
      · exact hinv x hx

/-- A stored user already blocked with a recorded reason. -/
def blockedCarl : User :=
  ⟨3, "carl", "carl@example.com", "pw", "Carl", "freelancer", "blocked",
    some ("spam"), none, none, 0⟩

/-- A store holding the blocked user. -/
def storeWithBlocked : MemStorage :=
  ⟨[(3, blockedCarl)], [], [], [], [], [], 4, 1, 1, 1, 1, 1⟩

/-- Claim C5 counterexample: blocking with a null (defaulted) reason does
not record the given reason: the previous blockedReason survives
instead of becoming the given null. -/
theorem c5_counterexample :
    ((MemStorage.updateUserStatus storeWithBlocked (Value.num 3) UStatus.blocked none).1.map
      User.blockedReason) = some (some ("spam")) ∧
    some ("spam") ≠ (none : Option String) :=
  ⟨by decide, by decide⟩

/-- The user record resulting from re-blocking Carl with a fresh reason. -/
def carlReblocked : User :=
  ⟨3, "carl", "carl@example.com", "pw", "Carl", "freelancer", "blocked",
    some ("abuse"), none, none, 0⟩

/-- Witness for c5_user_status_enum at a concrete blocking update. -/
theorem c5_user_status_enum_witness :
    carlReblocked.status = "blocked" ∧ carlReblocked.blockedReason = some ("abuse") :=
  ⟨(((c5_user_status_enum storeWithBlocked).2 (Value.num 3) UStatus.blocked
      (some ("abuse"))).2.1 carlReblocked (by decide)).1,
   (((c5_user_status_enum storeWithBlocked).2 (Value.num 3) UStatus.blocked
      (some ("abuse"))).2.1 carlReblocked (by decide)).2.2.2 "abuse" rfl (by decide) rfl⟩

/-- Nothing strictly equals NaN. -/
theorem seq_nan (v : Value) : seq v Value.nan = false := by
  cases v <;> rfl

/-- Folding Map.delete over a key list removes exactly the entries whose
key occurs in the list. -/
theorem foldl_mdel_contains {α : Type} (ids : List Int) (m : List (Int × α)) :
    ids.foldl mdel m = m.filter (fun p => !(ids.contains p.1)) := by
  induction ids generalizing m with
  | nil => simp
  | cons i is ih =>
    rw [List.foldl_cons, ih, mdel, List.filter_filter]
    apply List.filter_congr
    intro p _
    simp only [List.contains_cons, Bool.not_or]
    rw [Bool.and_comm]
    rfl

/-- With nodup keys, a key determines its entry value. -/
theorem mem_key_unique {α : Type} (m : List (Int × α)) (nd : (m.map Prod.fst).Nodup)
    {k : Int} {x y : α} (hx : (k, x) ∈ m) (hy : (k, y) ∈ m) : x = y := by
  induction m with
  | nil => cases hx
  | cons p m ih =>
    rw [List.map_cons, List.nodup_cons] at nd
    rcases List.mem_cons.1 hx with h1 | h1
    · rcases List.mem_cons.1 hy with h2 | h2
      · rw [← h1] at h2
        exact (congrArg Prod.snd h2).symm
      · exfalso
        apply nd.1
        rw [← h1]
        exact List.mem_map.2 ⟨(k, y), h2, rfl⟩
    · rcases List.mem_cons.1 hy with h2 | h2
      · exfalso
        apply nd.1
        rw [← h2]
        exact List.mem_map.2 ⟨(k, x), h1, rfl⟩
      · exact ih nd.2 h1 h2

/-- Under the key-equals-record-id invariant, the ids of the records
matching a predicate are the keys of the matching entries. -/
theorem ids_map_fst {α : Type} (m : List (Int × α)) (idOf : α → Int) (pred : α → Bool)
    (wf : ∀ p ∈ m, idOf p.2 = p.1) :
    ((mvalues m).filter pred).map idOf = (m.filter (fun p => pred p.2)).map Prod.fst := by
  induction m with
  | nil => rfl
  | cons p m ih =>
    have hp : idOf p.2 = p.1 := wf p (List.mem_cons_self p m)
    have ih2 := ih (fun q hq => wf q (List.mem_cons_of_mem p hq))
    simp only [mvalues] at ih2
    simp only [mvalues, List.map_cons, List.filter_cons]
    by_cases hpred : pred p.2 = true
    · rw [if_pos hpred, if_pos hpred, List.map_cons, List.map_cons, hp, ih2]
    · rw [if_neg hpred, if_neg hpred, ih2]

/-- Under nodup keys, key membership in the matching-entry key list is
exactly the predicate on that entry's value. -/
theorem contains_filtered_keys {α : Type} (m : List (Int × α)) (pred : α → Bool)
    (nd : (m.map Prod.fst).Nodup) (k : Int) (x : α) (hmem : (k, x) ∈ m) :
    ((m.filter (fun p => pred p.2)).map Prod.fst).contains k = pred x := by
  cases hp : pred x with
  | true =>
    have : k ∈ (m.filter (fun p => pred p.2)).map Prod.fst := by
      apply List.mem_map.2
      refine ⟨(k, x), ?_, rfl⟩
      exact List.mem_filter.2 ⟨hmem, hp⟩
    exact List.elem_eq_true_of_mem this
  | false =>
    by_contra hc
    rw [Bool.not_eq_false] at hc
    have hk : k ∈ (m.filter (fun p => pred p.2)).map Prod.fst := by
      simpa [List.elem_iff] using hc
    obtain ⟨q, hq, hqk⟩ := List.mem_map.1 hk
    obtain ⟨hqm, hqp⟩ := List.mem_filter.1 hq
    have hq2 : (k, q.2) ∈ m := by
      rw [← hqk]
      exact hqm
    have : q.2 = x := mem_key_unique m nd hq2 hmem
    rw [this, hp] at hqp
    cases hqp

/-- Deleting the collected ids of the records matching a predicate is
filtering the matching entries out, given well-formed keys. -/
theorem foldl_del_filter {α : Type} (m : List (Int × α)) (idOf : α → Int) (pred : α → Bool)
    (wf : ∀ p ∈ m, idOf p.2 = p.1) (nd : (m.map Prod.fst).Nodup) :
    (((mvalues m).filter pred).map idOf).foldl mdel m = m.filter (fun p => !(pred p.2)) := by
  rw [ids_map_fst m idOf pred wf, foldl_mdel_contains]
  apply List.filter_congr
  intro p hp
  rw [contains_filtered_keys m pred nd p.1 p.2 hp]

/-- Claim C10: for an id resolving to the number n, deleteUser removes
exactly the user stored under n and every service, job and application
whose userId strictly equals n, leaving all orders, all reviews, every
other record und all counters unchanged; for an id that does not
resolve it returns the store unchanged.  The key hypotheses state that
each map is well-formed: entry keys carry the record ids and are
duplicate-free, as the counter discipline guarantees. -/
theorem c10_delete_user_frame (st : MemStorage) (id : Value)
    (hsw : ∀ p ∈ st.services, Service.id p.2 = p.1)
    (hsn : (st.services.map Prod.fst).Nodup)
    (hjw : ∀ p ∈ st.jobs, Job.id p.2 = p.1)
    (hjn : (st.jobs.map Prod.fst).Nodup)
    (haw : ∀ p ∈ st.applications, Application.id p.2 = p.1)
    (han : (st.applications.map Prod.fst).Nodup) :
    (resolveIntId id = none → MemStorage.deleteUser st id = st)
  ∧ (∀ n, resolveIntId id = some n →
      MemStorage.deleteUser st id = { st with
        users := mdel st.users n,
        services := st.services.filter (fun p => !(seq p.2.userId (Value.num n))),
        jobs := st.jobs.filter (fun p => !(seq p.2.userId (Value.num n))),
        applications := st.applications.filter (fun p => !(seq p.2.userId (Value.num n))) }) := by
  constructor
  · intro hnone
    cases id with
    | num n => simp [resolveIntId] at hnone
    | nan =>
      show MemStorage.deleteUser st Value.nan = st
      simp only [MemStorage.deleteUser, resolveNumericId, seq_nan, List.filter_false,
        List.map_nil, List.foldl_nil]
    | str s =>
      have hp : parseIntJS s = none := hnone
      simp [MemStorage.deleteUser, resolveNumericId, hp]
  · intro n hsome
    have hdel : MemStorage.deleteUser st id = MemStorage.deleteUser st (Value.num n) := by
      cases id with
      | num k =>
        have : k = n := by simpa [resolveIntId] using hsome
        rw [this]
      | nan => simp [resolveIntId] at hsome
      | str s =>
        have hp : parseIntJS s = some n := hsome
        simp [MemStorage.deleteUser, resolveNumericId, hp]
    rw [hdel]
    show ({ st with
        users := mdel st.users n,
        services := (((mvalues st.services).filter
          (fun s => seq s.userId (Value.num n))).map Service.id).foldl mdel st.services,
        jobs := (((mvalues st.jobs).filter
          (fun j => seq j.userId (Value.num n))).map Job.id).foldl mdel st.jobs,
        applications := (((mvalues st.applications).filter
          (fun a => seq a.userId (Value.num n))).map Application.id).foldl mdel
            st.applications } : MemStorage) = _
    rw [foldl_del_filter st.services Service.id _ hsw hsn,
        foldl_del_filter st.jobs Job.id _ hjw hjn,
        foldl_del_filter st.applications Application.id _ haw han]

/-- A second user for the deletion witness. -/
def daveUser : User :=
  ⟨2, "dave", "dave@example.com", "pw", "Dave", "employer", "active", none, none, none, 0⟩

/-- A service owned by user 2. -/
def svcOfDave : Service :=
  ⟨2, .num 2, "Banner", 20, "design", "active", none, 0⟩

/-- A job owned by user 1. -/
def jobOfAlice : Job :=
  ⟨1, .num 1, "Site", 100, "web", "open", none, none, 0⟩

/-- An application by user 1. -/
def appOfAlice : Application :=
  ⟨1, .num 1, .num 1, "hi", "pending", none, 0⟩

/-- An order involving users 1 and 2. -/
def ordSample : Order :=
  ⟨1, .num 1, .num 2, .num 1, 50, "paid", 0⟩

/-- A review by user 1. -/
def revSample : Review :=
  ⟨1, .num 1, .num 1, 5, none, 0⟩

/-- A populated store for the deletion witness. -/
def storeDel : MemStorage :=
  ⟨[(1, aliceUser), (2, daveUser)], [(1, svcOne), (2, svcOfDave)], [(1, jobOfAlice)],
    [(1, appOfAlice)], [(1, ordSample)], [(1, revSample)], 3, 3, 2, 2, 2, 2⟩

/-- Witness for c10_delete_user_frame: deleting user 1 removes the user,
their service, job and application, and keeps the other user's
records, the order and the review. -/
theorem c10_delete_user_frame_witness :
    MemStorage.deleteUser storeDel (Value.num 1) =
      ⟨[(2, daveUser)], [(2, svcOfDave)], [], [], [(1, ordSample)], [(1, revSample)],
        3, 3, 2, 2, 2, 2⟩ := by
  rw [(c10_delete_user_frame storeDel (Value.num 1) (by decide) (by decide) (by decide)
    (by decide) (by decide) (by decide)).2 1 rfl]
  decide
